import Mathlib

/-!
Verification development for the appleweather repository.

The repository is a React Native weather application.  The stateful core
modelled here consists of:

* the tracked-city collection and its `addCity` / `deleteCity` operations
  (src/unnamed/part_001, and the string-list variant in src/app/index.tsx);
* the per-page asynchronous weather fetch (`fetchWeather` in
  src/unnamed/part_000 and src/app/index.tsx) together with the component
  state written by its callbacks;
* the debounced suggestion search (`fetchSuggestions` plus the debounce
  effect in both menu screens);
* suggestion acceptance (`handleSelectSuggestion` in src/unnamed/part_000
  and `handleCitySelect` in src/unnamed/part_001).

JavaScript string primitives are embedded at the level of character lists:
`String.prototype.trim` removes leading and trailing whitespace and
`String.prototype.toLowerCase` lowercases character by character.  These are
written as structural list programs so that every definition in this file is
evaluable by the kernel.
-/

namespace AppleWeather

/-- Model of JavaScript `String.prototype.trim`: drop leading whitespace,
then drop trailing whitespace (implemented by reversing, dropping the
leading whitespace of the reversal, and reversing back). -/
def jsTrim (s : String) : String :=
  ⟨((s.data.dropWhile Char.isWhitespace).reverse.dropWhile Char.isWhitespace).reverse⟩

/-- Model of JavaScript `String.prototype.toLowerCase`: lowercase each
character. -/
def jsToLower (s : String) : String :=
  ⟨s.data.map Char.toLower⟩

theorem jsTrim_length_le (s : String) : (jsTrim s).length ≤ s.length := by
  simp only [jsTrim, String.length]
  calc ((s.data.dropWhile Char.isWhitespace).reverse.dropWhile Char.isWhitespace).reverse.length
      = ((s.data.dropWhile Char.isWhitespace).reverse.dropWhile Char.isWhitespace).length := by
        simp
    _ ≤ (s.data.dropWhile Char.isWhitespace).reverse.length :=
        ((s.data.dropWhile Char.isWhitespace).reverse.dropWhile_sublist _).length_le
    _ = (s.data.dropWhile Char.isWhitespace).length := by simp
    _ ≤ s.data.length := (s.data.dropWhile_sublist _).length_le

theorem jsToLower_eq_empty_iff (s : String) : jsToLower s = "" ↔ s = "" := by
  obtain ⟨d⟩ := s
  simp only [jsToLower]
  constructor
  · intro h
    have hd : d.map Char.toLower = ("" : String).data := congrArg String.data h
    simp only [String.data] at hd
    have : d = [] := by
      cases d with
      | nil => rfl
      | cons a t => simp_all
    simp [this]
  · intro h
    have hd : d = [] := by
      have := congrArg String.data h
      simpa using this
    simp [hd]

/-! ## The tracked-city collection (src/unnamed/part_001)

`City` is `{ id, name }`; `addCity` trims the identifier, rejects
case-insensitive duplicates of an existing `id`, and otherwise appends a new
city whose `id` and `name` are both the trimmed identifier.  `deleteCity`
refuses to delete when at most one city is tracked and otherwise filters out
the city with the given `id`. -/

structure City where
  id : String
  name : String
deriving DecidableEq

/-- Outcome of `addCity`: city appended, duplicate alert shown
("City Exists"), or silent no-op on an identifier that trims to empty. -/
inductive AddOutcome where
  | added
  | alreadyExists
  | noop
deriving DecidableEq

/-- Outcome of `deleteCity`: city removed, or the "Cannot Delete" alert when
the collection holds at most one city. -/
inductive DeleteOutcome where
  | deleted
  | lastLocation
deriving DecidableEq

/-- `addCity` from src/unnamed/part_001 lines 41-58. -/
def addCity (cities : List City) (cityIdentifier : String) : List City × AddOutcome :=
  let newCityName := jsTrim cityIdentifier
  if newCityName ≠ "" ∧
      (cities.find? (fun c => jsToLower c.id == jsToLower newCityName)) = none then
    (cities ++ [{ id := newCityName, name := newCityName }], .added)
  else if newCityName ≠ "" then
    (cities, .alreadyExists)
  else
    (cities, .noop)

/-- `deleteCity` from src/unnamed/part_001 lines 60-67. -/
def deleteCity (cities : List City) (idToDelete : String) : List City × DeleteOutcome :=
  if cities.length ≤ 1 then
    (cities, .lastLocation)
  else
    (cities.filter (fun city => city.id != idToDelete), .deleted)

/-- A user-driven collection mutation. -/
inductive Op where
  | addOp (identifier : String)
  | deleteOp (id : String)

/-- Run a sequence of add/delete operations against the collection. -/
def runOps (cities : List City) : List Op → List City
  | [] => cities
  | .addOp s :: ops => runOps (addCity cities s).1 ops
  | .deleteOp s :: ops => runOps (deleteCity cities s).1 ops

/-- Collection well-formedness from the data model: the collection is
non-empty and ids are unique case-insensitively. -/
def WF (cities : List City) : Prop :=
  cities ≠ [] ∧ (cities.map (fun c => jsToLower c.id)).Nodup

instance : DecidablePred WF := fun cities => by
  unfold WF
  infer_instance

theorem addCity_cases (cities : List City) (x : String) :
    (jsTrim x ≠ "" ∧ (cities.find? (fun c => jsToLower c.id == jsToLower (jsTrim x))) = none ∧
        addCity cities x = (cities ++ [{ id := jsTrim x, name := jsTrim x }], .added)) ∨
    (jsTrim x ≠ "" ∧ (cities.find? (fun c => jsToLower c.id == jsToLower (jsTrim x))) ≠ none ∧
        addCity cities x = (cities, .alreadyExists)) ∨
    (jsTrim x = "" ∧ addCity cities x = (cities, .noop)) := by
  by_cases h1 : jsTrim x = ""
  · right; right
    refine ⟨h1, ?_⟩
    unfold addCity
    simp [h1]
  · by_cases h2 : (cities.find? (fun c => jsToLower c.id == jsToLower (jsTrim x))) = none
    · left
      refine ⟨h1, h2, ?_⟩
      unfold addCity
      simp only [ne_eq, h1, not_false_eq_true, h2, and_self, if_true]
    · right; left
      refine ⟨h1, h2, ?_⟩
      unfold addCity
      simp only [ne_eq, h1, not_false_eq_true, h2, and_false, if_false, if_true]

theorem addCity_WF (cities : List City) (x : String) (h : WF cities) :
    WF (addCity cities x).1 := by
  rcases addCity_cases cities x with ⟨h1, h2, heq⟩ | ⟨_, _, heq⟩ | ⟨_, heq⟩
  · rw [heq]
    obtain ⟨hne, hnd⟩ := h
    refine ⟨by simp, ?_⟩
    rw [List.map_append]
    rw [List.nodup_append]
    refine ⟨hnd, List.nodup_singleton _, ?_⟩
    intro a ha hb
    simp only [List.map_cons, List.map_nil, List.mem_singleton] at hb
    subst hb
    simp only [List.mem_map] at ha
    obtain ⟨c, hc, hlow⟩ := ha
    have := List.find?_eq_none.mp h2 c hc
    rw [hlow] at this
    simp at this
  · rw [heq]; exact h
  · rw [heq]; exact h

theorem deleteCity_singleton (cities : List City) (d : String)
    (h : cities.length = 1) : deleteCity cities d = (cities, .lastLocation) := by
  unfold deleteCity
  simp [h]

theorem deleteCity_WF (cities : List City) (d : String) (h : WF cities) :
    WF (deleteCity cities d).1 := by
  unfold deleteCity
  by_cases hl : cities.length ≤ 1
  · simpa [hl] using h
  · simp only [hl, if_false]
    obtain ⟨_, hnd⟩ := h
    have hsub : List.Sublist (cities.filter (fun city => city.id != d)) cities :=
      List.filter_sublist cities
    refine ⟨?_, hnd.sublist (hsub.map _)⟩
    -- at most one city can have id exactly `d`, so the filter keeps at least one
    intro hempty
    have hall : ∀ c ∈ cities, c.id = d := by
      intro c hc
      have := List.filter_eq_nil_iff.mp hempty c hc
      simpa using this
    push_neg at hl
    obtain ⟨a, rest, rfl⟩ : ∃ a rest, cities = a :: rest := by
      cases cities with
      | nil => simp at hl
      | cons a rest => exact ⟨a, rest, rfl⟩
    obtain ⟨b, t, rfl⟩ : ∃ b t, rest = b :: t := by
      cases rest with
      | nil => simp at hl
      | cons b t => exact ⟨b, t, rfl⟩
    have ha : a.id = d := hall a (List.mem_cons_self a (b :: t))
    have hb : b.id = d := hall b (List.mem_cons_of_mem a (List.mem_cons_self b t))
    have hab : jsToLower b.id = jsToLower a.id := by rw [ha, hb]
    rw [List.map_cons, List.nodup_cons] at hnd
    refine hnd.1 ?_
    rw [List.map_cons]
    rw [← hab]
    exact List.mem_cons_self (jsToLower b.id) _

theorem runOps_WF (ops : List Op) (cities : List City) (h : WF cities) :
    WF (runOps cities ops) := by
  induction ops generalizing cities with
  | nil => exact h
  | cons op ops ih =>
    cases op with
    | addOp s => exact ih _ (addCity_WF cities s h)
    | deleteOp s => exact ih _ (deleteCity_WF cities s h)

/-- C1: starting from a well-formed non-empty collection (unique ids
case-insensitively, the documented data-model invariant), every sequence of
add/delete operations keeps the collection length at least 1, and deleting
from a collection that holds exactly one location fails with the
last-location error, leaving the collection unchanged. -/
theorem c1_collection_never_empty (cities0 : List City) (ops : List Op)
    (h : WF cities0) :
    1 ≤ (runOps cities0 ops).length ∧
    ∀ (cities : List City) (d : String), cities.length = 1 →
      deleteCity cities d = (cities, DeleteOutcome.lastLocation) := by
  constructor
  · have hwf := runOps_WF ops cities0 h
    exact List.length_pos.mpr hwf.1
  · intro cities d hlen
    exact deleteCity_singleton cities d hlen

theorem c1_collection_never_empty_witness :
    WF [City.mk "Irvine, US" "Irvine,US"] ∧
    1 ≤ (runOps [City.mk "Irvine, US" "Irvine,US"]
      [Op.addOp " Paris, FR ", Op.deleteOp "Irvine, US"]).length ∧
    deleteCity [City.mk "Irvine, US" "Irvine,US"] "Irvine, US" =
      ([City.mk "Irvine, US" "Irvine,US"], DeleteOutcome.lastLocation) :=
  ⟨by decide,
   (c1_collection_never_empty [City.mk "Irvine, US" "Irvine,US"]
     [Op.addOp " Paris, FR ", Op.deleteOp "Irvine, US"] (by decide)).1,
   (c1_collection_never_empty [City.mk "Irvine, US" "Irvine,US"] [] (by decide)).2
     [City.mk "Irvine, US" "Irvine,US"] "Irvine, US" (by decide)⟩

/-- C2: when some existing city id (non-empty, as all reachable ids are)
case-insensitively equals the trimmed identifier, `addCity` fails with the
duplicate outcome and leaves the collection unchanged; a successful add
appends exactly one city whose id is the trimmed identifier; and adding the
same identifier twice never mutates the collection a second time, so no
duplicate entry is ever produced. -/
theorem c2_add_duplicate_rejected (cities : List City) (x : String)
    (hmatch : ∃ c ∈ cities, c.id ≠ "" ∧ jsToLower c.id = jsToLower (jsTrim x)) :
    addCity cities x = (cities, AddOutcome.alreadyExists) ∧
    (∀ (cs : List City) (y : String), (addCity cs y).2 = AddOutcome.added →
      (addCity cs y).1 = cs ++ [{ id := jsTrim y, name := jsTrim y }]) ∧
    (∀ (cs : List City) (y : String),
      (addCity (addCity cs y).1 y).1 = (addCity cs y).1) := by
  obtain ⟨c, hc, hne, hlow⟩ := hmatch
  have htrim : jsTrim x ≠ "" := by
    intro h0
    rw [h0] at hlow
    have : jsToLower "" = "" := rfl
    rw [this] at hlow
    exact hne ((jsToLower_eq_empty_iff c.id).mp hlow)
  have hfind : (cities.find? (fun c => jsToLower c.id == jsToLower (jsTrim x))) ≠ none := by
    intro h0
    have := List.find?_eq_none.mp h0 c hc
    rw [hlow] at this
    simp at this
  refine ⟨?_, ?_, ?_⟩
  · rcases addCity_cases cities x with ⟨_, h2, _⟩ | ⟨_, _, heq⟩ | ⟨h1, _⟩
    · exact absurd h2 hfind
    · exact heq
    · exact absurd h1 htrim
  · intro cs y hadded
    rcases addCity_cases cs y with ⟨_, _, heq⟩ | ⟨_, _, heq⟩ | ⟨_, heq⟩
    · rw [heq]
    · rw [heq] at hadded; simp at hadded
    · rw [heq] at hadded; simp at hadded
  · intro cs y
    rcases addCity_cases cs y with ⟨h1, _, heq⟩ | ⟨_, _, heq⟩ | ⟨_, heq⟩
    · rw [heq]
      have hmem : ({ id := jsTrim y, name := jsTrim y } : City) ∈
          cs ++ [{ id := jsTrim y, name := jsTrim y }] := by simp
      have hfind2 : ((cs ++ [({ id := jsTrim y, name := jsTrim y } : City)]).find?
          (fun c => jsToLower c.id == jsToLower (jsTrim y))) ≠ none := by
        intro h0
        have := List.find?_eq_none.mp h0 _ hmem
        simp at this
      rcases addCity_cases (cs ++ [{ id := jsTrim y, name := jsTrim y }]) y with
        ⟨_, h2, _⟩ | ⟨_, _, heq2⟩ | ⟨h1b, _⟩
      · exact absurd h2 hfind2
      · rw [heq2]
      · exact absurd h1b h1
    · simp [heq]
    · simp [heq]

theorem c2_add_duplicate_rejected_witness :
    (∃ c ∈ [City.mk "London, GB" "London,GB"],
      c.id ≠ "" ∧ jsToLower c.id = jsToLower (jsTrim " london, gb ")) ∧
    addCity [City.mk "London, GB" "London,GB"] " london, gb " =
      ([City.mk "London, GB" "London,GB"], AddOutcome.alreadyExists) :=
  ⟨by decide,
   (c2_add_duplicate_rejected [City.mk "London, GB" "London,GB"] " london, gb "
     (by decide)).1⟩

/-- C10: an identifier that trims to the empty string makes `addCity` a
silent no-op: the collection is unchanged and neither the added nor the
duplicate-alert outcome is produced. -/
theorem c10_empty_identifier_noop (cities : List City) (x : String)
    (h : jsTrim x = "") : addCity cities x = (cities, AddOutcome.noop) := by
  rcases addCity_cases cities x with ⟨h1, _, _⟩ | ⟨h1, _, _⟩ | ⟨_, heq⟩
  · exact absurd h h1
  · exact absurd h h1
  · exact heq

theorem c10_empty_identifier_noop_witness :
    jsTrim "   " = "" ∧
    addCity [City.mk "Tokyo, JP" "Tokyo,JP"] "   " =
      ([City.mk "Tokyo, JP" "Tokyo,JP"], AddOutcome.noop) :=
  ⟨by decide, c10_empty_identifier_noop [City.mk "Tokyo, JP" "Tokyo,JP"] "   " (by decide)⟩

/-! ## The paged string-list variant (src/app/index.tsx)

Here the collection is a plain list of city name strings, deletion is by
index (`cities.filter((_, index) => index !== indexToDelete)` behind the
length guard), and `activeIndex` is written only by the view-visibility
callback `onViewableItemsChanged`, which stores whatever index the view
reports as most visible. -/

structure AppState where
  cities : List String
  activeIndex : Nat
deriving DecidableEq

/-- `deleteCity` from src/app/index.tsx lines 210-214: refuse when at most
one city is tracked, otherwise keep every position except `indexToDelete`. -/
def deleteCityAt (cities : List String) (indexToDelete : Nat) : List String :=
  if cities.length ≤ 1 then cities
  else (cities.enum.filter (fun p => p.1 != indexToDelete)).map (fun p => p.2)

/-- Effect of the `deleteCity` handler on the application state: only the
city list is written; `activeIndex` is not touched by the handler. -/
def deleteCityStep (st : AppState) (indexToDelete : Nat) : AppState :=
  { st with cities := deleteCityAt st.cities indexToDelete }

/-- `onViewableItemsChanged` from src/app/index.tsx line 198: store the
index the view reports as most visible. -/
def onViewableItemsChangedStep (st : AppState) (reportedIndex : Nat) : AppState :=
  { st with activeIndex := reportedIndex }

/-- C5 counterexample: from collection `[A, B]` with ActiveIndex 1, deleting
the entry at index 0 yields collection `[B]`, but the delete handler leaves
ActiveIndex at 1, not at the claimed decremented value 0. -/
theorem c5_counterexample_delete_keeps_index :
    (deleteCityStep { cities := ["A", "B"], activeIndex := 1 } 0).cities = ["B"] ∧
    (deleteCityStep { cities := ["A", "B"], activeIndex := 1 } 0).activeIndex = 1 ∧
    (1 : Nat) ≠ 0 := by
  refine ⟨?_, rfl, by decide⟩
  decide

/-- C5 amended: the delete handler removes the entry at the given index but
does not itself modify ActiveIndex; ActiveIndex changes only when the
view-visibility callback reports a new most-visible index (a valid index of
the new collection).  In the `[A, B]`, ActiveIndex = 1, delete-at-0 scenario
the collection becomes `[B]` and any valid subsequent view report
necessarily sets ActiveIndex to 0. -/
theorem c5_amended_view_reclamps (cities : List String) (a i r : Nat)
    (h2 : 2 ≤ cities.length) :
    (deleteCityStep { cities := cities, activeIndex := a } i).activeIndex = a ∧
    (deleteCityStep { cities := cities, activeIndex := a } i).cities =
      (cities.enum.filter (fun p => p.1 != i)).map (fun p => p.2) ∧
    (onViewableItemsChangedStep
      (deleteCityStep { cities := cities, activeIndex := a } i) r).activeIndex = r ∧
    (deleteCityStep { cities := ["A", "B"], activeIndex := 1 } 0).cities = ["B"] ∧
    (∀ r2 : Nat,
      r2 < ((deleteCityStep { cities := ["A", "B"], activeIndex := 1 } 0).cities).length →
      (onViewableItemsChangedStep
        (deleteCityStep { cities := ["A", "B"], activeIndex := 1 } 0) r2).activeIndex = 0) := by
  refine ⟨rfl, ?_, rfl, by decide, ?_⟩
  · simp only [deleteCityStep, deleteCityAt]
    have : ¬cities.length ≤ 1 := by omega
    simp [this]
  · intro r2 hr2
    have hlen : ((deleteCityStep { cities := ["A", "B"], activeIndex := 1 } 0).cities).length = 1 := by
      decide
    rw [hlen] at hr2
    have : r2 = 0 := Nat.lt_one_iff.mp hr2
    subst this
    rfl

theorem c5_amended_view_reclamps_witness :
    2 ≤ (["A", "B"] : List String).length ∧
    (deleteCityStep { cities := ["A", "B"], activeIndex := 1 } 0).activeIndex = 1 ∧
    (onViewableItemsChangedStep
      (deleteCityStep { cities := ["A", "B"], activeIndex := 1 } 0) 0).activeIndex = 0 :=
  ⟨by decide,
   (c5_amended_view_reclamps ["A", "B"] 1 0 0 (by decide)).1,
   (c5_amended_view_reclamps ["A", "B"] 1 0 0 (by decide)).2.2.2.2 0 (by decide)⟩

/-! ## The per-page weather fetch (src/unnamed/part_000 lines 57-84,
src/app/index.tsx lines 54-77)

`fetchWeather` first calls the geocoding endpoint; a non-ok geocoding
response or an empty candidate list throws the city-not-found error.  It
then calls the weather endpoint with the resolved coordinates; a non-ok
weather response throws the upstream (API key) error.  A transport-level
exception from either `fetch` falls through to the generic catch with the
transport error message.  The component state consists of `weatherData`,
`loading` and `error`, written by `setLoading` / `setError` /
`setWeatherData` with no fetch-identity guard. -/

structure GeoCandidate where
  lat : Int
  lon : Int
deriving DecidableEq

/-- Result of one HTTP fetch: a transport-level failure (the promise
rejects), or a response with an ok flag and a parsed body. -/
inductive NetResult (α : Type) where
  | netFail
  | response (ok : Bool) (body : α)
deriving DecidableEq

/-- The three distinguishable failure messages produced by `fetchWeather`:
the city-not-found message, the upstream (API key) message, and the
transport error message surfaced by the generic catch. -/
inductive ErrorKind where
  | cityNotFound
  | upstreamError
  | networkError
deriving DecidableEq

inductive FetchResult (σ : Type) where
  | success (snapshot : σ)
  | failed (e : ErrorKind)
deriving DecidableEq

/-- Control flow of `fetchWeather`: geocoding step, then weather step. -/
def fetchWeather {σ : Type} (geo : NetResult (List GeoCandidate))
    (wx : NetResult σ) : FetchResult σ :=
  match geo with
  | .netFail => .failed .networkError
  | .response ok geoData =>
    if ok = false ∨ geoData = [] then .failed .cityNotFound
    else
      match wx with
      | .netFail => .failed .networkError
      | .response wok snapshot =>
        if wok then .success snapshot else .failed .upstreamError

/-- C7: a fetch fails with the city-not-found kind exactly when the
geocoding endpoint responds non-ok or with zero candidates; with the
upstream kind exactly when geocoding succeeded and the weather endpoint
responds non-ok; with the network kind exactly when a transport-level
failure occurs in whichever step runs; and a single fetch outcome carries
at most one failure kind, the three kinds being pairwise distinct. -/
theorem c7_error_kind_characterization {σ : Type}
    (geo : NetResult (List GeoCandidate)) (wx : NetResult σ) :
    (fetchWeather geo wx = .failed .cityNotFound ↔
      ∃ ok geoData, geo = .response ok geoData ∧ (ok = false ∨ geoData = [])) ∧
    (fetchWeather geo wx = .failed .upstreamError ↔
      ∃ geoData, geo = .response true geoData ∧ geoData ≠ [] ∧
        ∃ s, wx = .response false s) ∧
    (fetchWeather geo wx = .failed .networkError ↔
      (geo = .netFail ∨
        ∃ geoData, geo = .response true geoData ∧ geoData ≠ [] ∧ wx = .netFail)) ∧
    (∀ e1 e2 : ErrorKind,
      fetchWeather geo wx = .failed e1 → fetchWeather geo wx = .failed e2 → e1 = e2) ∧
    (ErrorKind.cityNotFound ≠ ErrorKind.upstreamError ∧
      ErrorKind.cityNotFound ≠ ErrorKind.networkError ∧
      ErrorKind.upstreamError ≠ ErrorKind.networkError) := by
  refine ⟨?_, ?_, ?_, ?_, by decide⟩
  all_goals
    first
    | (intro e1 e2 h1 h2
       rw [h1] at h2
       exact (FetchResult.failed.injEq _ _).mp h2)
    | (cases geo with
       | netFail => simp [fetchWeather]
       | response ok geoData =>
         cases ok with
         | false => simp [fetchWeather]
         | true =>
           by_cases hge : geoData = []
           · simp [fetchWeather, hge]
           · cases wx with
             | netFail => simp [fetchWeather, hge]
             | response wok s => cases wok <;> simp [fetchWeather, hge])

/-- Component state of a weather page: `weatherData`, `loading`, `error`
(src/unnamed/part_000 lines 51-53).  The snapshot type parameter stands for
the fetched weather payload. -/
structure PageState (σ : Type) where
  weatherData : Option σ
  loading : Bool
  error : Option ErrorKind
deriving DecidableEq

/-- An observable event of one `fetchWeather` invocation: the synchronous
prologue (`setLoading(true); setError(null)`), or the completion of its
awaited network work with a result.  The `fetchId` records which invocation
the event belongs to; the source installs no guard based on it. -/
inductive FetchEvent (σ : Type) where
  | start (fetchId : Nat)
  | complete (fetchId : Nat) (result : FetchResult σ)

/-- State written by the callbacks of `fetchWeather`
(src/unnamed/part_000 lines 57-79): on start, `setLoading(true)` and
`setError(null)`; on successful completion, `setWeatherData` then
`setLoading(false)`; on failed completion, `setError` then
`setLoading(false)`.  The fetch identity is ignored, mirroring the absence
of any most-recently-initiated guard in the source. -/
def stepEvent {σ : Type} (st : PageState σ) : FetchEvent σ → PageState σ
  | .start _ => { st with loading := true, error := none }
  | .complete _ (.success d) => { st with weatherData := some d, loading := false }
  | .complete _ (.failed e) => { st with error := some e, loading := false }

def runEvents {σ : Type} (st : PageState σ) (events : List (FetchEvent σ)) : PageState σ :=
  events.foldl stepEvent st

/-- The render (src/unnamed/part_000 line 101) shows the weather content
block whenever `weatherData` is non-null, regardless of `loading` and
`error`. -/
def displayedSnapshot {σ : Type} (st : PageState σ) : Option σ :=
  st.weatherData

/-- C3: the claim demands that for two fetches of the same key the
later-initiated fetch's result lands regardless of completion order; the
code applies each completion unconditionally, so in the trace where fetch 1
starts, fetch 2 starts, fetch 2 completes with snapshot 2 and then fetch 1
completes with snapshot 1, the stored value is snapshot 1 — the
earlier-initiated fetch overwrites the later one.  The last conjunct shows
the transition ignores the fetch identity entirely. -/
theorem c3_race_older_fetch_overwrites :
    (runEvents (σ := Nat) { weatherData := none, loading := false, error := none }
      [FetchEvent.start 1, FetchEvent.start 2,
       FetchEvent.complete 2 (FetchResult.success 2),
       FetchEvent.complete 1 (FetchResult.success 1)]).weatherData = some 1 ∧
    (1 : Nat) ≠ 2 ∧
    (∀ (st : PageState Nat) (f1 f2 : Nat) (r : FetchResult Nat),
      stepEvent st (FetchEvent.complete f1 r) = stepEvent st (FetchEvent.complete f2 r)) :=
  ⟨by decide, by decide, fun st f1 f2 r => by cases r <;> rfl⟩

/-- C4: after a snapshot fetched under the old preferences is in state, a
preference change only re-runs `fetchWeather`, whose prologue sets
`loading` without clearing `weatherData`; the old snapshot stays stored and
rendered (the render shows the content block whenever `weatherData` is
non-null), and it even survives a failed re-fetch — contradicting the claim
that a read after the change returns Loading or a fresh snapshot, never the
old one.  The snapshot here is tagged with the unit system it was fetched
under. -/
theorem c4_stale_snapshot_displayed :
    displayedSnapshot (stepEvent (runEvents (σ := String × String)
        { weatherData := none, loading := true, error := none }
        [FetchEvent.start 1, FetchEvent.complete 1 (FetchResult.success ("metric", "Paris,FR"))])
        (FetchEvent.start 2)) = some ("metric", "Paris,FR") ∧
    (stepEvent (runEvents (σ := String × String)
        { weatherData := none, loading := true, error := none }
        [FetchEvent.start 1, FetchEvent.complete 1 (FetchResult.success ("metric", "Paris,FR"))])
        (FetchEvent.start 2)).loading = true ∧
    displayedSnapshot (stepEvent (stepEvent (runEvents (σ := String × String)
        { weatherData := none, loading := true, error := none }
        [FetchEvent.start 1, FetchEvent.complete 1 (FetchResult.success ("metric", "Paris,FR"))])
        (FetchEvent.start 2))
        (FetchEvent.complete 2 (FetchResult.failed ErrorKind.upstreamError))) =
      some ("metric", "Paris,FR") := by
  refine ⟨by decide, by decide, by decide⟩

/-! ## The debounced suggestion search (src/unnamed/part_000 lines 302-324,
src/app/index.tsx lines 156-166)

On every change of `searchInput` the effect re-runs: its cleanup clears the
previously scheduled timer; if the trimmed input is longer than 2
characters a new 300 ms timer is scheduled that will call
`fetchSuggestions(searchInput)`, otherwise the suggestions are cleared
immediately and nothing is scheduled.  `fetchSuggestions` itself returns
without a lookup when its argument has fewer than 3 characters. -/

structure Suggestion where
  name : String
  country : String
  state : Option String
deriving DecidableEq

structure SearchState where
  pendingQuery : Option String
  suggestions : List Suggestion
deriving DecidableEq

/-- One run of the debounce effect for a new value of `searchInput`. -/
def searchEffect (st : SearchState) (searchInput : String) : SearchState :=
  if 2 < (jsTrim searchInput).length then
    { st with pendingQuery := some searchInput }
  else
    { pendingQuery := none, suggestions := [] }

/-- When the quiet period elapses, the surviving timer fires
`fetchSuggestions` on its captured query; the call issues the geocoding
lookup unless the query has fewer than 3 characters. -/
def debounceFlush (st : SearchState) : List String :=
  match st.pendingQuery with
  | none => []
  | some q => if q.length < 3 then [] else [q]

/-- The upstream lookups issued by a burst of keystrokes that all fall in
one debounce window: no timer fires during the burst, and at the end of the
window only the last scheduled call executes. -/
def lookupsAfterBurst (st : SearchState) (inputs : List String) : List String :=
  debounceFlush (inputs.foldl searchEffect st)

/-- C6: a burst of keystrokes inside one debounce window whose final query
trims to length at least 3 issues exactly one upstream lookup, for that
final query; each keystroke replaces whatever lookup was previously
scheduled; and a keystroke whose trimmed length is below 3 immediately
clears the suggestions and schedules nothing. -/
theorem c6_debounce_single_lookup (st : SearchState) (qs : List String)
    (q : String) (h : 3 ≤ (jsTrim q).length) :
    lookupsAfterBurst st (qs ++ [q]) = [q] ∧
    (∀ (st2 : SearchState) (q2 : String),
      (searchEffect st2 q2).pendingQuery =
        if 2 < (jsTrim q2).length then some q2 else none) ∧
    (∀ (st2 : SearchState) (q2 : String), (jsTrim q2).length < 3 →
      searchEffect st2 q2 = { pendingQuery := none, suggestions := [] }) := by
  refine ⟨?_, ?_, ?_⟩
  · unfold lookupsAfterBurst
    rw [List.foldl_append]
    have hq : 2 < (jsTrim q).length := h
    have hlen : 3 ≤ q.length := le_trans h (jsTrim_length_le q)
    simp only [List.foldl_cons, List.foldl_nil, searchEffect, hq, if_true]
    unfold debounceFlush
    simp only []
    rw [if_neg (by omega)]
  · intro st2 q2
    unfold searchEffect
    by_cases h2 : 2 < (jsTrim q2).length
    · rw [if_pos h2, if_pos h2]
    · rw [if_neg h2, if_neg h2]
  · intro st2 q2 h2
    unfold searchEffect
    rw [if_neg (by omega)]

theorem c6_debounce_single_lookup_witness :
    3 ≤ (jsTrim "Londo").length ∧
    lookupsAfterBurst { pendingQuery := none, suggestions := [] }
      ["Lo", "Lon", "Londo"] = ["Londo"] ∧
    searchEffect { pendingQuery := some "Lon", suggestions := [] } "Lo" =
      { pendingQuery := none, suggestions := [] } :=
  ⟨by decide,
   (c6_debounce_single_lookup { pendingQuery := none, suggestions := [] }
     ["Lo", "Lon"] "Londo" (by decide)).1,
   (c6_debounce_single_lookup { pendingQuery := none, suggestions := [] }
     [] "Londo" (by decide)).2.2 { pendingQuery := some "Lon", suggestions := [] }
     "Lo" (by decide)⟩

/-! ## Deduplication of geocoding results (src/unnamed/part_000 lines
313-320, src/app/index.tsx line 164)

`fetchSuggestions` walks the geocoding results with
`data.forEach(item => { const key = item.name + "," + item.country;
if (!map.has(key)) map.set(key, ...) })` and stores
`Array.from(map.values())`: only the first item with each key is kept, in
insertion order. -/

structure GeoItem where
  name : String
  country : String
  state : Option String
deriving DecidableEq

/-- The Map key built for a geocoding result item. -/
def geoKey (g : GeoItem) : String := g.name ++ "," ++ g.country

def toSuggestion (g : GeoItem) : Suggestion :=
  { name := g.name, country := g.country, state := g.state }

/-- The forEach-with-Map scan: keep an item only when its key has not been
seen yet. -/
def dedupLoop : List GeoItem → List String → List GeoItem
  | [], _ => []
  | g :: gs, seen =>
    if geoKey g ∈ seen then dedupLoop gs seen
    else g :: dedupLoop gs (geoKey g :: seen)

/-- The suggestion list produced from the geocoding results. -/
def fetchSuggestionsResult (data : List GeoItem) : List Suggestion :=
  (dedupLoop data []).map toSuggestion

/-- Modelled from the spec wording, for comparison with the source loop:
keep the first occurrence of each (name, countryCode) pair and drop every
later item with the same pair. -/
def specFirstByPair : List GeoItem → List GeoItem
  | [] => []
  | g :: gs =>
    g :: specFirstByPair (gs.filter (fun g2 => !(g2.name == g.name && g2.country == g.country)))
termination_by l => l.length
decreasing_by
  simp only [List.length_cons]
  exact Nat.lt_succ_of_le (List.length_filter_le _ _)

/-- First-occurrence scan keyed by the Map key string; intermediate form
between the source loop and the pair-keyed spec description. -/
def firstByKey : List GeoItem → List GeoItem
  | [] => []
  | g :: gs => g :: firstByKey (gs.filter (fun g2 => geoKey g2 != geoKey g))
termination_by l => l.length
decreasing_by
  simp only [List.length_cons]
  exact Nat.lt_succ_of_le (List.length_filter_le _ _)

theorem dedupLoop_nil (seen : List String) : dedupLoop [] seen = [] := rfl

theorem dedupLoop_cons (g : GeoItem) (gs : List GeoItem) (seen : List String) :
    dedupLoop (g :: gs) seen =
      if geoKey g ∈ seen then dedupLoop gs seen
      else g :: dedupLoop gs (geoKey g :: seen) := rfl

theorem dedupLoop_congr (gs : List GeoItem) (seen1 seen2 : List String)
    (h : ∀ k, k ∈ seen1 ↔ k ∈ seen2) : dedupLoop gs seen1 = dedupLoop gs seen2 := by
  induction gs generalizing seen1 seen2 with
  | nil => rfl
  | cons g gs ih =>
    unfold dedupLoop
    by_cases hg : geoKey g ∈ seen1
    · rw [if_pos hg, if_pos ((h _).mp hg)]
      exact ih _ _ h
    · rw [if_neg hg, if_neg (fun hx => hg ((h _).mpr hx))]
      congr 1
      refine ih _ _ ?_
      intro k
      simp only [List.mem_cons, h k]

theorem dedupLoop_filter (gs : List GeoItem) (k : String) (seen : List String) :
    dedupLoop gs (k :: seen) = dedupLoop (gs.filter (fun g => geoKey g != k)) seen := by
  induction gs generalizing seen with
  | nil => rfl
  | cons g gs ih =>
    by_cases hk : geoKey g = k
    · have hmem : geoKey g ∈ k :: seen := by rw [hk]; exact List.mem_cons_self _ _
      have hfil : ((g :: gs).filter (fun g => geoKey g != k)) =
          gs.filter (fun g => geoKey g != k) := by
        rw [List.filter_cons]
        simp [hk]
      rw [hfil]
      rw [dedupLoop_cons, if_pos hmem]
      exact ih seen
    · have hfil : ((g :: gs).filter (fun g => geoKey g != k)) =
          g :: gs.filter (fun g => geoKey g != k) := by
        rw [List.filter_cons]
        simp [hk]
      rw [hfil]
      by_cases hseen : geoKey g ∈ seen
      · have hmem : geoKey g ∈ k :: seen := List.mem_cons_of_mem _ hseen
        rw [dedupLoop_cons, if_pos hmem]
        rw [dedupLoop_cons, if_pos hseen]
        exact ih seen
      · have hmem : geoKey g ∉ k :: seen := by
          intro hx
          rcases List.mem_cons.mp hx with h1 | h1
          · exact hk h1
          · exact hseen h1
        rw [dedupLoop_cons, if_neg hmem]
        rw [dedupLoop_cons, if_neg hseen]
        congr 1
        calc dedupLoop gs (geoKey g :: k :: seen)
            = dedupLoop gs (k :: geoKey g :: seen) := by
              refine dedupLoop_congr gs _ _ ?_
              intro k2
              simp only [List.mem_cons]
              tauto
          _ = dedupLoop (gs.filter (fun g2 => geoKey g2 != k)) (geoKey g :: seen) :=
              ih (geoKey g :: seen)

theorem dedupLoop_nil_eq_firstByKey (data : List GeoItem) :
    dedupLoop data [] = firstByKey data := by
  generalize hn : data.length = n
  induction n using Nat.strong_induction_on generalizing data with
  | _ n ih =>
    cases data with
    | nil =>
      rw [dedupLoop_nil]
      simp only [firstByKey]
    | cons g gs =>
      rw [dedupLoop_cons, if_neg (List.not_mem_nil _)]
      simp only [firstByKey]
      rw [dedupLoop_filter gs (geoKey g) []]
      congr 1
      refine ih (gs.filter (fun g2 => geoKey g2 != geoKey g)).length ?_ _ rfl
      subst hn
      simp only [List.length_cons]
      exact Nat.lt_succ_of_le (List.length_filter_le _ _)

theorem dedupLoop_sublist (gs : List GeoItem) (seen : List String) :
    List.Sublist (dedupLoop gs seen) gs := by
  induction gs generalizing seen with
  | nil => exact List.Sublist.refl _
  | cons g gs ih =>
    unfold dedupLoop
    by_cases hg : geoKey g ∈ seen
    · rw [if_pos hg]
      exact (ih seen).cons g
    · rw [if_neg hg]
      exact (ih _).cons₂ g

theorem dedupLoop_key_not_seen (gs : List GeoItem) (seen : List String) :
    ∀ g ∈ dedupLoop gs seen, geoKey g ∉ seen := by
  induction gs generalizing seen with
  | nil => intro g hg; simp [dedupLoop] at hg
  | cons g0 gs ih =>
    intro g hg
    unfold dedupLoop at hg
    by_cases h0 : geoKey g0 ∈ seen
    · rw [if_pos h0] at hg
      exact ih seen g hg
    · rw [if_neg h0] at hg
      rcases List.mem_cons.mp hg with rfl | hg2
      · exact h0
      · intro hk
        exact ih _ g hg2 (List.mem_cons_of_mem _ hk)

theorem dedupLoop_keys_nodup (gs : List GeoItem) (seen : List String) :
    ((dedupLoop gs seen).map geoKey).Nodup := by
  induction gs generalizing seen with
  | nil => simp [dedupLoop]
  | cons g0 gs ih =>
    unfold dedupLoop
    by_cases h0 : geoKey g0 ∈ seen
    · rw [if_pos h0]
      exact ih seen
    · rw [if_neg h0]
      rw [List.map_cons, List.nodup_cons]
      refine ⟨?_, ih _⟩
      intro hmem
      rw [List.mem_map] at hmem
      obtain ⟨g, hg, hkey⟩ := hmem
      have := dedupLoop_key_not_seen gs (geoKey g0 :: seen) g hg
      rw [hkey] at this
      exact this (List.mem_cons_self _ _)

theorem string_ext {s t : String} (h : s.data = t.data) : s = t := by
  cases s
  cases t
  exact congrArg String.mk h

theorem append_comma_inj : ∀ (a1 a2 b1 b2 : List Char),
    ',' ∉ a1 → ',' ∉ a2 → a1 ++ ',' :: b1 = a2 ++ ',' :: b2 → a1 = a2 ∧ b1 = b2 := by
  intro a1
  induction a1 with
  | nil =>
    intro a2 b1 b2 _ h2 he
    cases a2 with
    | nil =>
      simp only [List.nil_append, List.cons.injEq] at he
      exact ⟨rfl, he.2⟩
    | cons c t =>
      simp only [List.nil_append, List.cons_append, List.cons.injEq] at he
      exact absurd (he.1 ▸ List.mem_cons_self c t) (he.1 ▸ h2)
  | cons c t ih =>
    intro a2 b1 b2 h1 h2 he
    cases a2 with
    | nil =>
      simp only [List.cons_append, List.nil_append, List.cons.injEq] at he
      exact absurd (List.mem_cons_self c t) (he.1 ▸ h1)
    | cons c2 t2 =>
      simp only [List.cons_append, List.cons.injEq] at he
      obtain ⟨rfl, he2⟩ := he
      have h1t : ',' ∉ t := fun hx => h1 (List.mem_cons_of_mem _ hx)
      have h2t : ',' ∉ t2 := fun hx => h2 (List.mem_cons_of_mem _ hx)
      obtain ⟨ht, hb⟩ := ih t2 b1 b2 h1t h2t he2
      exact ⟨by rw [ht], hb⟩

theorem geoKey_inj (g1 g2 : GeoItem) (h1 : ',' ∉ g1.country.data)
    (h2 : ',' ∉ g2.country.data) :
    geoKey g1 = geoKey g2 ↔ (g1.name = g2.name ∧ g1.country = g2.country) := by
  constructor
  · intro h
    have hd : g1.name.data ++ ',' :: g1.country.data =
        g2.name.data ++ ',' :: g2.country.data := by
      have hdata := congrArg String.data h
      simpa [geoKey] using hdata
    have hrev : g1.country.data.reverse ++ ',' :: g1.name.data.reverse =
        g2.country.data.reverse ++ ',' :: g2.name.data.reverse := by
      have hr := congrArg List.reverse hd
      simpa [List.reverse_append] using hr
    have h1r : ',' ∉ g1.country.data.reverse := by
      intro hx
      exact h1 (List.mem_reverse.mp hx)
    have h2r : ',' ∉ g2.country.data.reverse := by
      intro hx
      exact h2 (List.mem_reverse.mp hx)
    obtain ⟨hc, hn⟩ := append_comma_inj _ _ _ _ h1r h2r hrev
    refine ⟨string_ext ?_, string_ext ?_⟩
    · exact List.reverse_injective hn
    · exact List.reverse_injective hc
  · intro ⟨hn, hc⟩
    unfold geoKey
    rw [hn, hc]

theorem firstByKey_eq_specFirstByPair (data : List GeoItem)
    (hc : ∀ g ∈ data, ',' ∉ g.country.data) :
    firstByKey data = specFirstByPair data := by
  generalize hn : data.length = n
  induction n using Nat.strong_induction_on generalizing data with
  | _ n ih =>
    cases data with
    | nil => simp only [firstByKey, specFirstByPair]
    | cons g gs =>
      simp only [firstByKey, specFirstByPair]
      have hgc : ',' ∉ g.country.data := hc g (List.mem_cons_self _ _)
      have hfil : gs.filter (fun g2 => geoKey g2 != geoKey g) =
          gs.filter (fun g2 => !(g2.name == g.name && g2.country == g.country)) := by
        refine List.filter_congr ?_
        intro g2 hg2
        have hg2c : ',' ∉ g2.country.data := hc g2 (List.mem_cons_of_mem _ hg2)
        by_cases hname : g2.name = g.name
        · by_cases hcountry : g2.country = g.country
          · have hk : geoKey g2 = geoKey g :=
              (geoKey_inj g2 g hg2c hgc).mpr ⟨hname, hcountry⟩
            simp [hk, hname, hcountry]
          · have hk : geoKey g2 ≠ geoKey g := fun he =>
              hcountry ((geoKey_inj g2 g hg2c hgc).mp he).2
            rw [Bool.eq_iff_iff]
            simp [hk, hcountry]
        · have hk : geoKey g2 ≠ geoKey g := fun he =>
            hname ((geoKey_inj g2 g hg2c hgc).mp he).1
          rw [Bool.eq_iff_iff]
          simp [hk, hname]
      rw [hfil]
      congr 1
      refine ih (gs.filter (fun g2 => !(g2.name == g.name && g2.country == g.country))).length
        ?_ _ ?_ rfl
      · subst hn
        simp only [List.length_cons]
        exact Nat.lt_succ_of_le (List.length_filter_le _ _)
      · intro g3 hg3
        exact hc g3 (List.mem_cons_of_mem _ (List.mem_of_mem_filter hg3))

/-- C9: the suggestion list built from the geocoding results keeps, for each
(name, countryCode) pair, exactly the first occurrence in the input, in the
input's relative order: it equals the spec-level first-occurrence scan, it
is a sublist of the input (order preserved), and the kept (name, country)
pairs contain no duplicate.  The hypothesis that country codes contain no
comma makes the source's string key faithful to the pair. -/
theorem c9_suggestions_dedup_first_occurrence (data : List GeoItem)
    (hc : ∀ g ∈ data, ',' ∉ g.country.data) :
    fetchSuggestionsResult data = (specFirstByPair data).map toSuggestion ∧
    List.Sublist (fetchSuggestionsResult data) (data.map toSuggestion) ∧
    ((dedupLoop data []).map (fun g => (g.name, g.country))).Nodup := by
  refine ⟨?_, ?_, ?_⟩
  · unfold fetchSuggestionsResult
    rw [dedupLoop_nil_eq_firstByKey, firstByKey_eq_specFirstByPair data hc]
  · exact (dedupLoop_sublist data []).map toSuggestion
  · have hkeys := dedupLoop_keys_nodup data []
    have hmapmap : (dedupLoop data []).map geoKey =
        ((dedupLoop data []).map (fun g => (g.name, g.country))).map
          (fun p => p.1 ++ "," ++ p.2) := by
      rw [List.map_map]
      rfl
    rw [hmapmap] at hkeys
    exact hkeys.of_map _

theorem c9_suggestions_dedup_first_occurrence_witness :
    (∀ g ∈ [GeoItem.mk "Paris" "FR" none, GeoItem.mk "Paris" "US" none,
        GeoItem.mk "Paris" "FR" (some "IDF")], ',' ∉ g.country.data) ∧
    fetchSuggestionsResult [GeoItem.mk "Paris" "FR" none, GeoItem.mk "Paris" "US" none,
        GeoItem.mk "Paris" "FR" (some "IDF")] =
      [Suggestion.mk "Paris" "FR" none, Suggestion.mk "Paris" "US" none] ∧
    List.Sublist (fetchSuggestionsResult [GeoItem.mk "Paris" "FR" none,
        GeoItem.mk "Paris" "US" none, GeoItem.mk "Paris" "FR" (some "IDF")])
      ([GeoItem.mk "Paris" "FR" none, GeoItem.mk "Paris" "US" none,
        GeoItem.mk "Paris" "FR" (some "IDF")].map toSuggestion) :=
  ⟨by decide, by decide,
   (c9_suggestions_dedup_first_occurrence [GeoItem.mk "Paris" "FR" none,
      GeoItem.mk "Paris" "US" none, GeoItem.mk "Paris" "FR" (some "IDF")]
      (by decide)).2.1⟩

/-! ## Accepting a suggestion (src/unnamed/part_000 lines 326-337,
src/unnamed/part_001 lines 33-39)

`handleSelectSuggestion` derives the identifier `name, country` from the
accepted suggestion; when a saved city's id matches it case-insensitively it
calls `onCitySelect` with that city's id (no collection write), otherwise it
calls `onAddCity`.  `handleCitySelect` resolves the id with `findIndex` and
scrolls the swiper to the resolved index; the swiper's visibility callback
then stores that index as the active one. -/

/-- The identifier derived from an accepted suggestion. -/
def suggestionIdentifier (s : Suggestion) : String :=
  s.name ++ ", " ++ s.country

/-- The action `handleSelectSuggestion` takes: navigate to an existing city
or add a new one. -/
inductive SelectAction where
  | select (id : String)
  | addNew (identifier : String)
deriving DecidableEq

/-- `handleSelectSuggestion` from src/unnamed/part_000 lines 326-337. -/
def handleSelectSuggestion (savedCities : List City) (s : Suggestion) : SelectAction :=
  match savedCities.find? (fun c => jsToLower c.id == jsToLower (suggestionIdentifier s)) with
  | some existingCity => .select existingCity.id
  | none => .addNew (suggestionIdentifier s)

/-- JavaScript `Array.prototype.findIndex`: the position of the first match,
if any (`-1` is modelled as `none`). -/
def findIndex (p : City → Bool) : List City → Option Nat
  | [] => none
  | c :: cs => if p c then some 0 else (findIndex p cs).map (· + 1)

/-- `handleCitySelect` from src/unnamed/part_001 lines 33-39: resolve the id
to its position; the caller scrolls there when the position exists. -/
def handleCitySelect (cities : List City) (cityId : String) : Option Nat :=
  findIndex (fun c => c.id == cityId) cities

theorem findIndex_isSome (p : City → Bool) (l : List City) :
    (findIndex p l).isSome = true ↔ ∃ c ∈ l, p c = true := by
  induction l with
  | nil => simp [findIndex]
  | cons a t ih =>
    by_cases ha : p a = true
    · simp [findIndex, ha]
    · simp [findIndex, ha, ih]

theorem findIndex_exact_eq (cities : List City) (t : String) (c0 : City)
    (hf : cities.find? (fun c => jsToLower c.id == jsToLower t) = some c0) :
    findIndex (fun c => c.id == c0.id) cities =
      findIndex (fun c => jsToLower c.id == jsToLower t) cities := by
  have hc0 : (jsToLower c0.id == jsToLower t) = true := by
    have := List.find?_some hf
    simpa using this
  induction cities with
  | nil => simp at hf
  | cons a rest ih =>
    cases hb : (jsToLower a.id == jsToLower t) with
    | true =>
      rw [List.find?_cons, hb] at hf
      obtain rfl : a = c0 := by simpa using hf
      simp [findIndex, hb]
    | false =>
      rw [List.find?_cons, hb] at hf
      simp only [] at hf
      have hexact : (a.id == c0.id) = false := by
        by_contra hx
        have hx2 : (a.id == c0.id) = true := by simpa using hx
        have hab : a.id = c0.id := beq_iff_eq.mp hx2
        have hcontra : (jsToLower a.id == jsToLower t) = true := by
          rw [hab]
          exact hc0
        rw [hcontra] at hb
        simp at hb
      simp only [findIndex, hexact, hb, Bool.false_eq_true, if_false]
      rw [ih hf]

/-- C8: when the identifier derived from an accepted suggestion matches a
tracked city id case-insensitively, `handleSelectSuggestion` takes the
navigation action with that city's id (it never calls `onAddCity`, so the
collection is not written), and `handleCitySelect` resolves that id to the
position of the case-insensitive match — the index to which the swiper is
scrolled and which the visibility callback then stores as active.  Only
when no tracked id matches is the add path invoked. -/
theorem c8_select_existing_navigates (cities : List City) (s : Suggestion)
    (h : ∃ c ∈ cities, jsToLower c.id = jsToLower (suggestionIdentifier s)) :
    (∃ c0, cities.find? (fun c => jsToLower c.id == jsToLower (suggestionIdentifier s)) =
        some c0 ∧
      handleSelectSuggestion cities s = SelectAction.select c0.id ∧
      handleCitySelect cities c0.id =
        findIndex (fun c => jsToLower c.id == jsToLower (suggestionIdentifier s)) cities ∧
      (handleCitySelect cities c0.id).isSome = true) ∧
    (∀ (cities2 : List City) (s2 : Suggestion),
      (∀ c ∈ cities2, jsToLower c.id ≠ jsToLower (suggestionIdentifier s2)) →
      handleSelectSuggestion cities2 s2 = SelectAction.addNew (suggestionIdentifier s2)) := by
  constructor
  · have hsome : (cities.find?
        (fun c => jsToLower c.id == jsToLower (suggestionIdentifier s))).isSome = true := by
      rw [List.find?_isSome]
      obtain ⟨c, hc, hlow⟩ := h
      exact ⟨c, hc, by simp [hlow]⟩
    obtain ⟨c0, hc0⟩ := Option.isSome_iff_exists.mp hsome
    refine ⟨c0, hc0, ?_, ?_, ?_⟩
    · unfold handleSelectSuggestion
      rw [hc0]
    · unfold handleCitySelect
      exact findIndex_exact_eq cities (suggestionIdentifier s) c0 hc0
    · unfold handleCitySelect
      rw [findIndex_exact_eq cities (suggestionIdentifier s) c0 hc0]
      rw [findIndex_isSome]
      obtain ⟨c, hc, hlow⟩ := h
      exact ⟨c, hc, by simp [hlow]⟩
  · intro cities2 s2 hno
    unfold handleSelectSuggestion
    have : cities2.find?
        (fun c => jsToLower c.id == jsToLower (suggestionIdentifier s2)) = none := by
      rw [List.find?_eq_none]
      intro c hc
      simp only [beq_iff_eq]
      exact hno c hc
    rw [this]

theorem c8_select_existing_navigates_witness :
    (∃ c ∈ [City.mk "Irvine, US" "Irvine,US", City.mk "London, GB" "London,GB"],
      jsToLower c.id = jsToLower (suggestionIdentifier (Suggestion.mk "LONDON" "GB" none))) ∧
    ((∃ c0, ([City.mk "Irvine, US" "Irvine,US", City.mk "London, GB" "London,GB"].find?
        (fun c => jsToLower c.id ==
          jsToLower (suggestionIdentifier (Suggestion.mk "LONDON" "GB" none)))) = some c0 ∧
      handleSelectSuggestion [City.mk "Irvine, US" "Irvine,US", City.mk "London, GB" "London,GB"]
        (Suggestion.mk "LONDON" "GB" none) = SelectAction.select c0.id ∧
      handleCitySelect [City.mk "Irvine, US" "Irvine,US", City.mk "London, GB" "London,GB"]
          c0.id =
        findIndex (fun c => jsToLower c.id ==
          jsToLower (suggestionIdentifier (Suggestion.mk "LONDON" "GB" none)))
          [City.mk "Irvine, US" "Irvine,US", City.mk "London, GB" "London,GB"] ∧
      (handleCitySelect [City.mk "Irvine, US" "Irvine,US", City.mk "London, GB" "London,GB"]
        c0.id).isSome = true) ∧
    (∀ (cities2 : List City) (s2 : Suggestion),
      (∀ c ∈ cities2, jsToLower c.id ≠ jsToLower (suggestionIdentifier s2)) →
      handleSelectSuggestion cities2 s2 = SelectAction.addNew (suggestionIdentifier s2))) :=
  ⟨by decide,
   c8_select_existing_navigates
     [City.mk "Irvine, US" "Irvine,US", City.mk "London, GB" "London,GB"]
     (Suggestion.mk "LONDON" "GB" none) (by decide)⟩

end AppleWeather
